import Mathlib

/-!
Verification development for the convoy container fleet controller
(command-line client plus in-container agent over gRPC).

The definitions below are a shallow embedding of the Go sources:

* `goClean`, `goJoin2`, `goDir`, `goRelC`, `goRel`, `goHasPfx`, `goTrimSpace`
  embed the `path/filepath` and `strings` standard-library functions used by
  the repository (slash-separated Unix paths; `filepath.Clean`'s lexical
  algorithm is rendered as the equivalent component-stack computation).
* the agent's `ExecuteCommand` and `handleCopyToAgent`
  (internal/agent/server.go), the registry (internal/orchestrator/registry.go),
  the RPC client pool (internal/orchestrator/runtime_docker.go), the
  round-robin balancer (pkg/loadbalancer) and the client-side tar extractor
  (cmd/convoy/cmds/exec.go) follow, each next to its theorems' needs.

All definitions are executable so that concrete runs can be settled by
`decide` / `rfl`.
-/

deriving instance DecidableEq for Except

/-- RPC status codes surfaced by the agent, mirroring the
`google.golang.org/grpc/codes` values the sources use. -/
inductive Code where
  | ok
  | invalidArgument
  | notFound
  | deadlineExceeded
  | canceled
  | internal
  | unknown
  | unimplemented
  deriving DecidableEq, Repr

/-! ## Go string / path primitives

Embeddings of `strings.HasPrefix`, `strings.TrimSpace`, `filepath.Clean`,
`filepath.Join`, `filepath.Dir` and `filepath.Rel` (Unix flavor: the
separator is `/` and volume names are empty).  They are written over
`String.data` with structural recursion, so the kernel can evaluate them. -/

/-- Embedding of Go `strings.HasPrefix s pre`. -/
def goHasPfx (s pre : String) : Bool :=
  pre.data.isPrefixOf s.data

/-- ASCII whitespace test used by `goTrimSpace` (Go `unicode.IsSpace`,
restricted to the ASCII space characters; the registry names the claims use
contain no exotic whitespace). -/
def isSpaceChar (c : Char) : Bool :=
  c == ' ' || c == '\t' || c == '\n' || c == '\x0B' || c == '\x0C' || c == '\r'

/-- Embedding of Go `strings.TrimSpace`. -/
def goTrimSpace (s : String) : String :=
  ⟨((s.data.dropWhile isSpaceChar).reverse.dropWhile isSpaceChar).reverse⟩

/-- Split a character list at every `/` (Go `strings.Split(s, "/")` on the
underlying bytes). -/
def splitCharsOnSlash : List Char → List (List Char)
  | [] => [[]]
  | c :: cs =>
    let r := splitCharsOnSlash cs
    if c = '/' then [] :: r
    else
      match r with
      | h :: t => (c :: h) :: t
      | [] => [[c]]

/-- Split a string at every `/`. -/
def splitOnSlash (s : String) : List String :=
  (splitCharsOnSlash s.data).map (fun l => ⟨l⟩)

/-- Join path components with `/` (no cleaning); `joinComps [a, b] = a ++ "/" ++ b`. -/
def joinComps : List String → String
  | [] => ""
  | [c] => c
  | c :: rest => c ++ "/" ++ joinComps rest

/-- One step of `filepath.Clean`'s element processing: push a component onto
the output stack (`rooted` tells whether the path is absolute). -/
def cleanPush (rooted : Bool) (stack : List String) (c : String) : List String :=
  if c = ".." then
    match stack with
    | [] => if rooted then [] else [".."]
    | top :: rest => if top = ".." then c :: stack else rest
  else c :: stack

/-- Embedding of Go `filepath.Clean` (Unix).  The byte-level algorithm of the
Go source is rendered as the equivalent computation on `/`-separated
components: empty and `.` components are dropped, `..` pops a previous
non-`..` component (and disappears at the root of an absolute path). -/
def goClean (path : String) : String :=
  if path = "" then "."
  else
    let rooted := goHasPfx path "/"
    let comps := (splitOnSlash path).filter (fun c => c != "" && c != ".")
    let stack := comps.foldl (cleanPush rooted) []
    let outComps := stack.reverse
    if rooted then "/" ++ joinComps outComps
    else if outComps = [] then "." else joinComps outComps

/-- Embedding of Go `filepath.Join(a, b)`: empty leading elements are
skipped, then the elements are joined with `/` and cleaned. -/
def goJoin2 (a b : String) : String :=
  if a ≠ "" then goClean (a ++ "/" ++ b)
  else if b ≠ "" then goClean b
  else ""

/-- Embedding of Go `filepath.Dir` (Unix): everything up to and including the
final separator, cleaned; `.` if there is no separator. -/
def goDir (p : String) : String :=
  let parts := splitOnSlash p
  if parts.length ≤ 1 then "."
  else goClean (joinComps parts.dropLast ++ "/")

/-- Drop the common leading components of two component lists (the first
differing elements of `filepath.Rel`'s scan). -/
def dropCommon : List String → List String → List String × List String
  | b :: bs, t :: ts => if b = t then dropCommon bs ts else (b :: bs, t :: ts)
  | bs, ts => (bs, ts)

/-- Component list a cleaned path contributes to `filepath.Rel`'s scan: the
scan sees an initial empty element for rooted paths, no element for the empty
string. -/
def relComps (s : String) : List String :=
  if s = "" then [] else if s = "/" then [""] else splitOnSlash s

/-- Embedding of Go `filepath.Rel(basepath, targpath)` (Unix), returning the
result's component list (`none` is Go's error return).  `goRel` joins the
components into the final string. -/
def goRelC (basepath targpath : String) : Option (List String) :=
  let base := goClean basepath
  let targ := goClean targpath
  if targ = base then some ["."]
  else
    let base' := if base = "." then "" else base
    if goHasPfx base' "/" ≠ goHasPfx targ "/" then none
    else
      let p := dropCommon (relComps base') (relComps targ)
      match p.1 with
      | [] => some p.2
      | b :: _ => if b = ".." then none else some (List.replicate p.1.length ".." ++ p.2)

/-- Embedding of Go `filepath.Rel` (Unix); `none` is the error return. -/
def goRel (basepath targpath : String) : Option String :=
  (goRelC basepath targpath).map joinComps

example : goClean "" = "." := by decide
example : goClean "/" = "/" := by decide
example : goClean "/.." = "/" := by decide
example : goClean "a/../../b" = "../b" := by decide
example : goClean "/tmp/d/../dfoo" = "/tmp/dfoo" := by decide
example : goClean "./a//b/" = "a/b" := by decide
example : goJoin2 "/tmp/d" "../etc/passwd" = "/tmp/etc/passwd" := by decide
example : goJoin2 "/tmp/d" "dir/" = "/tmp/d/dir" := by decide
example : goDir "/tmp/d/dir/file.txt" = "/tmp/d/dir" := by decide
example : goDir "a" = "." := by decide
example : goDir "/a" = "/" := by decide
example : goRel "/tmp/d" "/tmp/dfoo" = some "../dfoo" := by decide
example : goRel "/tmp/d" "/tmp/d/dir" = some "dir" := by decide
example : goRel "/tmp/d" "/tmp/etc/passwd" = some "../etc/passwd" := by decide
example : goRel "/tmp/d" "/tmp/d" = some "." := by decide
example : goRel "." "/x" = none := by decide
example : goRel "/tmp/d" "/tmp/d/..foo" = some "..foo" := by decide
example : goRel "a" "b/c" = some "../b/c" := by decide
example : goHasPfx "../dfoo" ".." = true := by decide
example : goHasPfx "..foo" ".." = true := by decide
example : goHasPfx "/tmp/dfoo" "/tmp/d" = true := by decide
example : goTrimSpace "  alpha " = "alpha" := by decide

/-! ## Filesystem model

An in-memory filesystem used to give semantics to the agent's tar
extraction: an association list from cleaned paths to entries.  `fsInsert`
replaces any previous binding, so a key is bound at most once.  File modes
and symlink resolution on open are abstracted away (no claim depends on
them); OS error texts are abbreviated. -/

/-- A filesystem entry: regular file with contents, directory, or symlink. -/
inductive FsEntry where
  | file (content : String)
  | dir
  | symlink (target : String)
  deriving DecidableEq, Repr

/-- The filesystem: path ↦ entry. -/
abbrev FS := List (String × FsEntry)

def fsLookup (fs : FS) (p : String) : Option FsEntry :=
  (fs.find? (fun kv => kv.1 == p)).map (·.2)

def fsErase (fs : FS) (p : String) : FS :=
  fs.filter (fun kv => kv.1 != p)

def fsInsert (fs : FS) (p : String) (e : FsEntry) : FS :=
  (p, e) :: fsErase fs p

/-- Whether `p` has an entry strictly below it (used for `rmdir` on a
non-empty directory). -/
def fsHasChild (fs : FS) (p : String) : Bool :=
  fs.any (fun kv => kv.1 != p && goHasPfx kv.1 (p ++ "/"))

def isDirEntry : FsEntry → Bool
  | .dir => true
  | _ => false

/-- Whether `p` can be traversed as a directory: the filesystem root `/` and
the working directory `.` always exist. -/
def dirExists (fs : FS) (p : String) : Bool :=
  p == "/" || p == "." ||
    (match fsLookup fs p with
     | some e => isDirEntry e
     | none => false)

/-- All ancestors of an absolute cleaned path that `MkdirAll` walks, the path
itself last (`/a/b ↦ [/a, /a/b]`); `/` itself contributes nothing. -/
def absAccum (acc : String) : List String → List String
  | [] => []
  | c :: rest =>
    let acc' := if acc = "/" then "/" ++ c else acc ++ "/" ++ c
    acc' :: absAccum acc' rest

def relAccumAux (acc : String) : List String → List String
  | [] => []
  | c :: rest =>
    let acc' := acc ++ "/" ++ c
    acc' :: relAccumAux acc' rest

/-- Ancestors of a relative cleaned path (`a/b ↦ [a, a/b]`). -/
def relAccum : List String → List String
  | [] => []
  | c :: rest => c :: relAccumAux c rest

/-- Ancestor chain (outermost first, the path itself last) of a cleaned
path, as visited by Go `os.MkdirAll`. -/
def pathChain (p : String) : List String :=
  if p = "/" ∨ p = "." then []
  else
    match splitOnSlash p with
    | "" :: rest => absAccum "/" rest
    | comps => relAccum comps

/-- Embedding of Go `os.MkdirAll(p, mode)` (mode abstracted): fails when any
existing ancestor is not a directory, otherwise creates every missing
directory along the chain. -/
def osMkdirAll (fs : FS) (p : String) : Except String FS :=
  let q := goClean p
  let ancs := pathChain q
  if ancs.any (fun a =>
      match fsLookup fs a with
      | some e => !isDirEntry e
      | none => false)
  then .error ("mkdir " ++ q ++ ": not a directory")
  else .ok (ancs.foldl
    (fun f a => if (fsLookup f a).isSome then f else fsInsert f a .dir) fs)

/-- Embedding of `os.OpenFile(p, O_CREATE|O_WRONLY|O_TRUNC, mode)` followed
by writing `content` (mode abstracted, symlink-following on open not
modelled): fails on an existing directory or a missing parent, otherwise
creates or truncates the file. -/
def osOpenWrite (fs : FS) (p content : String) : Except String FS :=
  match fsLookup fs p with
  | some .dir => .error "is a directory"
  | _ =>
    if dirExists fs (goDir p) then .ok (fsInsert fs p (.file content))
    else .error "no such file or directory"

/-- Embedding of Go `os.Symlink(linkname, p)`: fails if `p` already exists
(`EEXIST`) or its parent is missing. -/
def osSymlink (fs : FS) (linkname p : String) : Except String FS :=
  match fsLookup fs p with
  | some _ => .error "file exists"
  | none =>
    if dirExists fs (goDir p) then .ok (fsInsert fs p (.symlink linkname))
    else .error "no such file or directory"

/-- Embedding of Go `os.Remove(p)`: unlinks a file or symlink, removes an
empty directory, fails on a non-empty directory or a missing path. -/
def osRemove (fs : FS) (p : String) : Except String FS :=
  match fsLookup fs p with
  | none => .error "no such file or directory"
  | some .dir =>
    if fsHasChild fs p then .error "directory not empty" else .ok (fsErase fs p)
  | some _ => .ok (fsErase fs p)

/-- `_ = os.Remove(p)` — the extraction code discards the removal error. -/
def osRemoveIgnore (fs : FS) (p : String) : FS :=
  match osRemove fs p with
  | .ok fs' => fs'
  | .error _ => fs

example : osMkdirAll [] "/tmp/d" = .ok [("/tmp/d", .dir), ("/tmp", .dir)] := by decide
example : osMkdirAll [("/tmp", FsEntry.file "x")] "/tmp/d" =
    .error "mkdir /tmp/d: not a directory" := by decide
example : osRemove [("/a", FsEntry.dir), ("/a/b", FsEntry.file "y")] "/a" =
    .error "directory not empty" := by decide

/-! ## Agent tar extraction (`handleCopyToAgent`, internal/agent/server.go)

The tar wire framing (chunk frames feeding a pipe into `tar.Reader`) is
abstracted to the list of parsed tar entries the reader yields; tar header
parse errors and I/O write errors are not modelled.  Everything from the
per-entry path-traversal check onward follows the Go extraction goroutine
line by line. -/

/-- Tar entry type flags handled by the extractor; every other flag is
ignored by the `switch`. -/
inductive TarType where
  | dir
  | reg
  | symlink
  | other
  deriving DecidableEq, Repr

/-- A parsed tar entry: `name` and `linkname` from the header, `content` the
payload of a regular file. -/
structure TarEntry where
  name : String
  type : TarType
  content : String
  linkname : String
  deriving DecidableEq, Repr

/-- State of the extraction goroutine: filesystem, `totalBytes`,
`fileCount`, and `extractErr` (counters as `Nat`; the Go `int64`/`int32`
cannot overflow at the sizes the claims touch). -/
structure ExtractState where
  fs : FS
  totalBytes : Nat
  fileCount : Nat
  err : Option String
  deriving DecidableEq, Repr

/-- One iteration of the extraction loop of `handleCopyToAgent` for the
entry `e` under the cleaned destination root `root`: the
`filepath.Rel`-based path-traversal check, then the `switch` on the entry
type.  Once `extractErr` is set the goroutine has returned, so the state is
left unchanged. -/
def extractStep (root : String) (overwrite : Bool) (st : ExtractState)
    (e : TarEntry) : ExtractState :=
  match st.err with
  | some _ => st
  | none =>
    let targetPath := goJoin2 root e.name
    match goRel root targetPath with
    | none => { st with err := some ("invalid tar entry path: " ++ e.name) }
    | some rel =>
      if goHasPfx rel ".." then
        { st with err := some ("invalid tar entry path: " ++ e.name) }
      else
        match e.type with
        | .dir =>
          match osMkdirAll st.fs targetPath with
          | .ok fs' => { st with fs := fs' }
          | .error m =>
            { st with err := some ("failed to create directory " ++ targetPath ++ ": " ++ m) }
        | .reg =>
          match osMkdirAll st.fs (goDir targetPath) with
          | .error m => { st with err := some ("failed to create parent directory: " ++ m) }
          | .ok fs1 =>
            match osOpenWrite fs1 targetPath e.content with
            | .error m =>
              { st with fs := fs1,
                        err := some ("failed to create file " ++ targetPath ++ ": " ++ m) }
            | .ok fs2 =>
              { st with fs := fs2,
                        totalBytes := st.totalBytes + e.content.length,
                        fileCount := st.fileCount + 1 }
        | .symlink =>
          let fs0 := if overwrite then osRemoveIgnore st.fs targetPath else st.fs
          match osSymlink fs0 e.linkname targetPath with
          | .error m =>
            { st with fs := fs0,
                      err := some ("failed to create symlink " ++ targetPath ++ ": " ++ m) }
          | .ok fs' => { st with fs := fs', fileCount := st.fileCount + 1 }
        | .other => st

/-- The extraction goroutine run over a whole entry list. -/
def extractGo (root : String) (overwrite : Bool) (st : ExtractState)
    (entries : List TarEntry) : ExtractState :=
  entries.foldl (extractStep root overwrite) st

/-- The final frame of a successful copy. -/
structure CopyResult where
  success : Bool
  message : String
  totalBytes : Nat
  fileCount : Nat
  deriving DecidableEq, Repr

/-- Embedding of `handleCopyToAgent`: default the destination to `.`, clean
it, `MkdirAll` the root, run the extraction, and either report `Internal` or
send the single success `CopyResult`.  The returned pair is the final
filesystem and the RPC outcome. -/
def handleCopyToAgent (destPath : String) (overwrite : Bool)
    (entries : List TarEntry) (fs : FS) : FS × Except (Code × String) CopyResult :=
  let dp := if destPath = "" then "." else destPath
  let destRoot := goClean dp
  match osMkdirAll fs destRoot with
  | .error m => (fs, .error (.internal, "failed to create destination directory: " ++ m))
  | .ok fs1 =>
    let st := extractGo destRoot overwrite { fs := fs1, totalBytes := 0, fileCount := 0, err := none } entries
    match st.err with
    | some m => (st.fs, .error (.internal, "extraction failed: " ++ m))
    | none =>
      (st.fs, .ok { success := true, message := "copy completed successfully",
                    totalBytes := st.totalBytes, fileCount := st.fileCount })

/-! ## Client-side tar extractor check (`extractTarEntries`, cmd/convoy/cmds/exec.go)

The container→host extractor applies a prefix-string path-traversal test;
the agent applies a `filepath.Rel`-based test.  Both are embedded as
predicates on the destination path and the tar entry name, exactly as each
side computes them. -/

/-- The per-entry rejection test of the client-side `extractTarEntries`:
`targetPath := filepath.Join(destPath, header.Name)` is rejected unless
`filepath.Clean(targetPath)` has `filepath.Clean(destPath)` as a string
prefix. -/
def clientRejects (destPath name : String) : Bool :=
  let targetPath := goJoin2 destPath name
  !(goHasPfx (goClean targetPath) (goClean destPath))

/-- The per-entry rejection test of the agent's `handleCopyToAgent`: the
destination is defaulted to `.` and cleaned, and the entry is rejected when
`filepath.Rel(destRoot, join(destRoot, name))` errors or yields a result
with string prefix `..`. -/
def agentRejects (destPath name : String) : Bool :=
  let dp := if destPath = "" then "." else destPath
  let destRoot := goClean dp
  match goRel destRoot (goJoin2 destRoot name) with
  | none => true
  | some rel => goHasPfx rel ".."

/-- The claim's notion of an escaping entry: the entry's target, relative to
the cleaned destination root, begins with a `..` segment (its `filepath.Rel`
component list starts with `..`). -/
def escapesRoot (destRoot name : String) : Bool :=
  match goRelC destRoot (goJoin2 destRoot name) with
  | some (c :: _) => c == ".."
  | _ => false

example : clientRejects "/tmp/d" "../dfoo" = false := by decide
example : agentRejects "/tmp/d" "../dfoo" = true := by decide
example : clientRejects "/tmp/d" "../etc/passwd" = true := by decide
example : agentRejects "/tmp/d" "dir/file.txt" = false := by decide
example : escapesRoot "/tmp/d" "../etc/passwd" = true := by decide
example : escapesRoot "/tmp/d" "..foo" = false := by decide

/-! ## Agent command executor (`ExecuteCommand`, internal/agent/server.go)

The subprocess run (`cmd.Run()`), the concurrency-gate acquisition and the
context state are abstract inputs; the argument validation, the response
assembly and the status mapping follow the Go handler line by line. -/

/-- Outcome of `cmd.Run()`: success (exit 0), an `*exec.ExitError` (the
process ran and exited non-zero or was signalled, with the captured
buffers), or any other error (spawn/I-O failure). -/
inductive RunOutcome where
  | success (stdout stderr : String)
  | exitError (exitCode : Int) (stdout stderr : String)
  | otherError (msg : String) (stdout stderr : String)
  deriving DecidableEq, Repr

/-- Diagnosis of the handler's two `errors.Is` checks against
`err` and `cmdCtx.Err()`: no context error, deadline exceeded, or canceled. -/
inductive CtxErrKind where
  | noErr
  | deadlineExceeded
  | canceled
  deriving DecidableEq, Repr

/-- The wire `CommandRequest`. -/
structure CommandRequest where
  args : List String
  env : List (String × String)
  workDir : String
  timeoutSeconds : Int
  deriving DecidableEq, Repr

/-- The wire `CommandResponse`. -/
structure CommandResponse where
  stdout : String
  stderr : String
  exitCode : Int
  errorMessage : String
  deriving DecidableEq, Repr

/-- `(*exec.ExitError).Error()` for a normally exited process on Unix. -/
def exitErrorText (code : Int) : String :=
  "exit status " ++ toString code

/-- Embedding of the agent's `ExecuteCommand` handler.  `gate` is the result
of `s.acquire(ctx)` (`noErr` means a permit was obtained, otherwise the
context error is returned as the RPC error); `run` is the subprocess
outcome; `ctxErr` the deadline/cancel diagnosis after the run.  The result
mirrors Go's `(resp, err)` pair: the optional response body, the status
code (`Code.ok` for a nil error) and the status message. -/
def executeCommand (req : CommandRequest) (gate : CtxErrKind) (run : RunOutcome)
    (ctxErr : CtxErrKind) : Option CommandResponse × Code × String :=
  if req.args.length = 0 then (none, .invalidArgument, "args required")
  else
    match gate with
    | .deadlineExceeded => (none, .deadlineExceeded, "context deadline exceeded")
    | .canceled => (none, .canceled, "context canceled")
    | .noErr =>
      match run with
      | .success stdout stderr =>
        (some { stdout := stdout, stderr := stderr, exitCode := 0, errorMessage := "" }, .ok, "")
      | .exitError code stdout stderr =>
        let resp : CommandResponse :=
          { stdout := stdout, stderr := stderr, exitCode := code,
            errorMessage := exitErrorText code }
        match ctxErr with
        | .deadlineExceeded => (some resp, .deadlineExceeded, "command timed out")
        | .canceled => (some resp, .canceled, "command canceled")
        | .noErr => (some resp, .unknown, "command failed: " ++ exitErrorText code)
      | .otherError msg stdout stderr =>
        let resp : CommandResponse :=
          { stdout := stdout, stderr := stderr, exitCode := -1, errorMessage := msg }
        match ctxErr with
        | .deadlineExceeded => (some resp, .deadlineExceeded, "command timed out")
        | .canceled => (some resp, .canceled, "command canceled")
        | .noErr => (some resp, .unknown, "command failed: " ++ msg)

/-! ## Container registry (internal/orchestrator/registry.go) -/

/-- A registered container record.  Lifecycle timestamps and labels do not
influence the registry logic and are omitted. -/
structure GoContainer where
  id : String
  name : String
  image : String
  endpoint : String
  deriving DecidableEq, Repr

/-- The registry: primary map id ↦ record and secondary index name ↦ id
(Go maps, embedded as replace-on-insert association lists). -/
structure RegistryS where
  containers : List (String × GoContainer)
  nameIndex : List (String × String)
  deriving DecidableEq, Repr

def assocLookup (l : List (String × α)) (k : String) : Option α :=
  (l.find? (fun kv => kv.1 == k)).map (·.2)

def assocErase (l : List (String × α)) (k : String) : List (String × α) :=
  l.filter (fun kv => kv.1 != k)

def assocInsert (l : List (String × α)) (k : String) (v : α) : List (String × α) :=
  (k, v) :: assocErase l k

/-- `NewRegistry()`. -/
def newRegistry : RegistryS := { containers := [], nameIndex := [] }

/-- `setNameIndex`: index the trimmed name, skipping empty names. -/
def setNameIndex (idx : List (String × String)) (c : GoContainer) :
    List (String × String) :=
  let name := goTrimSpace c.name
  if name = "" then idx else assocInsert idx name c.id

/-- `removeNameIndex`: drop the name entry only if it still points at this
container's id (stale-reference safe). -/
def removeNameIndex (idx : List (String × String)) (c : GoContainer) :
    List (String × String) :=
  let name := goTrimSpace c.name
  if name = "" then idx
  else
    match assocLookup idx name with
    | some existingID => if existingID = c.id then assocErase idx name else idx
    | none => idx

/-- `Register`: validate, unindex the name of any record previously held
under the same id, store the record and index its name.  (`Option` stands
for the Go nil pointer.) -/
def register (r : RegistryS) (c : Option GoContainer) : Except String RegistryS :=
  match c with
  | none => .error "container is required"
  | some c =>
    if c.id = "" then .error "container id is required"
    else
      let idx1 :=
        match assocLookup r.containers c.id with
        | some existing => removeNameIndex r.nameIndex existing
        | none => r.nameIndex
      .ok { containers := assocInsert r.containers c.id c,
            nameIndex := setNameIndex idx1 c }

/-- `GetByName`: trim, refuse empty names, then follow the two indexes. -/
def getByName (r : RegistryS) (name : String) : Option GoContainer :=
  let n := goTrimSpace name
  if n = "" then none
  else
    match assocLookup r.nameIndex n with
    | none => none
    | some id => assocLookup r.containers id

/-! ## Round-robin load balancer (pkg/loadbalancer, src/unnamed/part_004) -/

/-- The `RoundRobin` balancer state: server list and cursor. -/
structure RoundRobin where
  servers : List String
  index : Nat
  deriving DecidableEq, Repr

/-- `NewRoundRobin()`. -/
def newRoundRobin : RoundRobin := { servers := [], index := 0 }

/-- `Next()`: the empty list yields `""`; otherwise the server at the cursor
is returned and the cursor advances mod the length.  The Go code indexes
`rr.servers[rr.index]` unconditionally, so a cursor at or beyond the length
is an index-out-of-range panic, embedded as `none`. -/
def rrNext (rr : RoundRobin) : Option (String × RoundRobin) :=
  if rr.servers.isEmpty then some ("", rr)
  else
    match rr.servers.get? rr.index with
    | some server =>
      some (server, { rr with index := (rr.index + 1) % rr.servers.length })
    | none => none

/-- `AddServer`: unconditional append. -/
def rrAdd (rr : RoundRobin) (server : String) : RoundRobin :=
  { rr with servers := rr.servers ++ [server] }

/-- Remove the first occurrence (`append(servers[:i], servers[i+1:]...)`
with `break`). -/
def removeFirst : List String → String → List String
  | [], _ => []
  | x :: xs, s => if x = s then xs else x :: removeFirst xs s

/-- `RemoveServer`: removes the first match; the cursor is not touched. -/
def rrRemove (rr : RoundRobin) (server : String) : RoundRobin :=
  { rr with servers := removeFirst rr.servers server }

/-- `n` successive `Next()` calls, collecting the returned endpoints; `none`
as soon as one call panics. -/
def rrNextN : Nat → RoundRobin → Option (List String × RoundRobin)
  | 0, rr => some ([], rr)
  | n + 1, rr =>
    match rrNext rr with
    | none => none
    | some (s, rr') =>
      match rrNextN n rr' with
      | none => none
      | some (l, r) => some (s :: l, r)

/-! ## RPC client pool (internal/orchestrator/runtime_docker.go)

Durations are `Int` nanoseconds; a Go context is its optional deadline
instant.  `rpcCopyCtx` is the one definition not taken from src/ (the
pool's `Copy` method is absent there); it is modelled from the spec. -/

/-- `RPCConfig`. -/
structure GoRPCConfig where
  dialTimeout : Int
  callTimeout : Int
  deriving DecidableEq, Repr

/-- `NewRPC`: non-positive timeouts fall back to the 5 s dial / 30 s call
defaults. -/
def newRPC (cfg : GoRPCConfig) : GoRPCConfig :=
  { dialTimeout := if cfg.dialTimeout ≤ 0 then 5 * 1000000000 else cfg.dialTimeout,
    callTimeout := if cfg.callTimeout ≤ 0 then 30 * 1000000000 else cfg.callTimeout }

/-- A Go context, reduced to its deadline instant (`none` = no deadline). -/
abbrev GoCtx := Option Int

/-- `context.WithTimeout(ctx, d)` at instant `now`: the new deadline is
`now + d`, capped by any earlier parent deadline. -/
def withTimeout (now : Int) (ctx : GoCtx) (d : Int) : GoCtx :=
  match ctx with
  | none => some (now + d)
  | some t => some (min t (now + d))

/-- Context used for the dial inside `connection`. -/
def dialCallCtx (cfg : GoRPCConfig) (now : Int) (ctx : GoCtx) : GoCtx :=
  withTimeout now ctx cfg.dialTimeout

/-- Context the pool passes to the unary `ExecuteCommand` call. -/
def executeCommandCallCtx (cfg : GoRPCConfig) (now : Int) (ctx : GoCtx) : GoCtx :=
  withTimeout now ctx cfg.callTimeout

/-- Context the pool passes to the unary `CheckHealth` call. -/
def checkHealthCallCtx (cfg : GoRPCConfig) (now : Int) (ctx : GoCtx) : GoCtx :=
  withTimeout now ctx cfg.callTimeout

/-- Context the pool passes to the `ExecuteShell` stream: the Go method
wraps the caller's context with `context.WithTimeout(ctx, r.cfg.CallTimeout)`
before `client.ExecuteShell(ctx)`. -/
def executeShellStreamCtx (cfg : GoRPCConfig) (now : Int) (ctx : GoCtx) : GoCtx :=
  withTimeout now ctx cfg.callTimeout

/-- Modelled from the spec: the pool's `Copy` method is not present under
src/ (only its callers in cmd/convoy/cmds/exec.go are); the spec states that
streaming calls pass the caller's context through unchanged. -/
def rpcCopyCtx (ctx : GoCtx) : GoCtx := ctx

/-! ## Connection cache (`connection`, internal/orchestrator/runtime_docker.go)

Connections are opaque `Nat` handles; the pool is an association list
endpoint ↦ connection.  The two mutex-protected critical sections of
`connection` are embedded separately so the dial race is expressible: the
first-check against the pool as seen before dialing, and the double-check
against the (possibly concurrently updated) pool after the dial. -/

/-- Result of `connection`: the returned connection, the resulting pool, and
the dialed connection that was closed as a race loser, if any. -/
structure ConnResult where
  conn : Nat
  pool : List (String × Nat)
  closed : Option Nat
  deriving DecidableEq, Repr

/-- The post-dial double-check: if some other caller populated the cache
while we dialed, close our fresh connection and return the cached survivor;
otherwise store the fresh connection. -/
def connectionAfterDial (pool : List (String × Nat)) (endpoint : String)
    (dialed : Nat) : ConnResult :=
  match assocLookup pool endpoint with
  | some existing => { conn := existing, pool := pool, closed := some dialed }
  | none => { conn := dialed, pool := assocInsert pool endpoint dialed, closed := none }

/-- A full uninterleaved `connection` call: the fast path returns the cached
connection without dialing; otherwise dial (producing `dialed`) and run the
double-check. -/
def connectionCall (pool : List (String × Nat)) (endpoint : String)
    (dialed : Nat) : ConnResult :=
  match assocLookup pool endpoint with
  | some c => { conn := c, pool := pool, closed := none }
  | none => connectionAfterDial pool endpoint dialed

/-- Number of cached connections an endpoint holds. -/
def countKey (pool : List (String × Nat)) (endpoint : String) : Nat :=
  pool.countP (fun kv => kv.1 == endpoint)

/-! ## Helper lemmas on the extraction state machine -/

/-- Once `extractErr` is set the goroutine has returned: a step changes
nothing. -/
theorem extractStep_of_err (root : String) (ow : Bool) (st : ExtractState)
    (e : TarEntry) (h : st.err.isSome = true) : extractStep root ow st e = st := by
  unfold extractStep
  split
  · rfl
  · rename_i hnone
    rw [hnone] at h
    simp at h

/-- Once `extractErr` is set, the remaining entries are not processed. -/
theorem extractGo_of_err (root : String) (ow : Bool) (st : ExtractState)
    (es : List TarEntry) (h : st.err.isSome = true) : extractGo root ow st es = st := by
  induction es with
  | nil => rfl
  | cons e es ih =>
    unfold extractGo at *
    rw [List.foldl_cons, extractStep_of_err root ow st e h]
    exact ih

/-- `extractGo` distributes over list append. -/
theorem extractGo_append (root : String) (ow : Bool) (st : ExtractState)
    (a b : List TarEntry) :
    extractGo root ow st (a ++ b) = extractGo root ow (extractGo root ow st a) b :=
  List.foldl_append _ _ _ _

/-- Unfolding one extraction step. -/
theorem extractGo_cons (root : String) (ow : Bool) (st : ExtractState)
    (e : TarEntry) (es : List TarEntry) :
    extractGo root ow st (e :: es) = extractGo root ow (extractStep root ow st e) es := rfl

/-- A component list starting with `..` joins to a string with prefix `..`. -/
theorem goHasPfx_dotdot_joinComps (tl : List String) :
    goHasPfx (joinComps (".." :: tl)) ".." = true := by
  cases tl with
  | nil => decide
  | cons h t =>
    show goHasPfx (".." ++ "/" ++ joinComps (h :: t)) ".." = true
    simp [goHasPfx, String.data_append, List.isPrefixOf]

/-- A step on an entry whose target escapes the root only records the
`invalid tar entry path` error. -/
theorem extractStep_escape (root : String) (ow : Bool) (st : ExtractState)
    (e : TarEntry) (herr : st.err = none) (hesc : escapesRoot root e.name = true) :
    extractStep root ow st e =
      { st with err := some ("invalid tar entry path: " ++ e.name) } := by
  unfold escapesRoot at hesc
  cases hrel : goRelC root (goJoin2 root e.name) with
  | none => rw [hrel] at hesc; simp at hesc
  | some comps =>
    cases comps with
    | nil => rw [hrel] at hesc; simp at hesc
    | cons c tl =>
      rw [hrel] at hesc
      simp only [beq_iff_eq] at hesc
      subst hesc
      have hjoin : goRel root (goJoin2 root e.name) = some (joinComps (".." :: tl)) := by
        rw [goRel, hrel]; rfl
      unfold extractStep
      rw [herr]
      simp [hjoin, goHasPfx_dotdot_joinComps]

/-- Escaping an entry freezes the extraction at the prefix state: the
filesystem and counters equal those after the first `i` entries, and an
error is recorded. -/
theorem extractGo_escape (root : String) (ow : Bool) (st0 : ExtractState)
    (entries : List TarEntry) (i : Nat) (hi : i < entries.length)
    (hesc : escapesRoot root (entries[i].name) = true) :
    (extractGo root ow st0 entries).fs = (extractGo root ow st0 (entries.take i)).fs
    ∧ (extractGo root ow st0 entries).totalBytes
        = (extractGo root ow st0 (entries.take i)).totalBytes
    ∧ (extractGo root ow st0 entries).fileCount
        = (extractGo root ow st0 (entries.take i)).fileCount
    ∧ (extractGo root ow st0 entries).err.isSome = true := by
  have hfull : extractGo root ow st0 entries
      = extractGo root ow (extractGo root ow st0 (entries.take i))
          (entries[i] :: entries.drop (i + 1)) := by
    conv_lhs => rw [← List.take_append_drop i entries, extractGo_append,
      List.drop_eq_getElem_cons hi]
  cases hstI : (extractGo root ow st0 (entries.take i)).err with
  | some m =>
    have hs : (extractGo root ow st0 (entries.take i)).err.isSome = true := by
      rw [hstI]; rfl
    rw [hfull, extractGo_of_err _ _ _ _ hs]
    exact ⟨rfl, rfl, rfl, hs⟩
  | none =>
    rw [hfull, extractGo_cons, extractStep_escape root ow _ _ hstI hesc,
      extractGo_of_err _ _ _ _ (by rfl)]
    exact ⟨rfl, rfl, rfl, rfl⟩

/-! ## Claim theorems -/

/-- C9: starting from a fresh round-robin balancer after AddServer(A),
AddServer(B), AddServer(C), ten successive Next() calls return
A,B,C,A,B,C,A,B,C,A; and on every balancer state with an empty server list,
Next() returns the empty string rather than an error. -/
theorem roundRobin_fairness_and_empty :
    (rrNextN 10 (rrAdd (rrAdd (rrAdd newRoundRobin "A") "B") "C")).map Prod.fst
      = some ["A", "B", "C", "A", "B", "C", "A", "B", "C", "A"]
    ∧ ∀ rr : RoundRobin, rr.servers = [] → rrNext rr = some ("", rr) := by
  constructor
  · decide
  · intro rr h
    simp [rrNext, h]

/-- Witness: the empty-list half of the C9 theorem applied at the concrete
state with servers = [] and cursor 5. -/
theorem roundRobin_fairness_and_empty_witness :
    rrNext { servers := [], index := 5 } = some ("", { servers := [], index := 5 }) :=
  roundRobin_fairness_and_empty.2 { servers := [], index := 5 } rfl

/-- C3 (code bug): RemoveServer does not clamp the cursor.  From the
reachable state AddServer(A), AddServer(B), Next() — cursor 1 — removing B
leaves cursor 1 over a one-element list, and the next Next() indexes
servers[1] out of range (a Go panic, embedded as `none`), violating the
claimed invariant cursor < length. -/
theorem roundRobin_remove_cursor_out_of_range :
    rrNext (rrAdd (rrAdd newRoundRobin "A") "B")
      = some ("A", { servers := ["A", "B"], index := 1 })
    ∧ rrRemove { servers := ["A", "B"], index := 1 } "B"
      = { servers := ["A"], index := 1 }
    ∧ rrNext { servers := ["A"], index := 1 } = none := by
  exact ⟨by decide, by decide, by decide⟩

/-- C2 (code bug): Register performs no name-conflict check.  Registering
{c2, alpha} after {c1, alpha} succeeds and silently rebinds the name index,
so GetByName("alpha") returns the c2 record — contradicting the
repository's own TestRegistry_RegisterDuplicateName — while re-registering
the same id with the same name is idempotent as claimed. -/
theorem registry_register_rebinds_name :
    register newRegistry (some ⟨"c1", "alpha", "img", "e1"⟩)
      = .ok { containers := [("c1", ⟨"c1", "alpha", "img", "e1"⟩)],
              nameIndex := [("alpha", "c1")] }
    ∧ register { containers := [("c1", ⟨"c1", "alpha", "img", "e1"⟩)],
                 nameIndex := [("alpha", "c1")] } (some ⟨"c2", "alpha", "img", "e2"⟩)
      = .ok { containers := [("c2", ⟨"c2", "alpha", "img", "e2"⟩),
                            ("c1", ⟨"c1", "alpha", "img", "e1"⟩)],
              nameIndex := [("alpha", "c2")] }
    ∧ getByName { containers := [("c2", ⟨"c2", "alpha", "img", "e2"⟩),
                                 ("c1", ⟨"c1", "alpha", "img", "e1"⟩)],
                  nameIndex := [("alpha", "c2")] } "alpha"
      = some ⟨"c2", "alpha", "img", "e2"⟩
    ∧ register { containers := [("c3", ⟨"c3", "beta", "img", "e3"⟩)],
                 nameIndex := [("beta", "c3")] } (some ⟨"c3", "beta", "img", "e3"⟩)
      = .ok { containers := [("c3", ⟨"c3", "beta", "img", "e3"⟩)],
              nameIndex := [("beta", "c3")] } := by
  exact ⟨by decide, by decide, by decide, by decide⟩

/-- C6 counterexample: TO_AGENT extraction increments file_count only for
regular files and symlinks, so the archive dir/ + dir/file.txt finishes with
file_count = 1 — not 2 as the claim states. -/
theorem copyToAgent_dir_archive_count_not_two :
    (handleCopyToAgent "/tmp/d" true
        [⟨"dir/", .dir, "", ""⟩, ⟨"dir/file.txt", .reg, "X", ""⟩]
        [("/tmp", .dir), ("/tmp/d", .dir)]).2
      = .ok { success := true, message := "copy completed successfully",
              totalBytes := 1, fileCount := 1 }
    ∧ ¬ ((handleCopyToAgent "/tmp/d" true
        [⟨"dir/", .dir, "", ""⟩, ⟨"dir/file.txt", .reg, "X", ""⟩]
        [("/tmp", .dir), ("/tmp/d", .dir)]).2
      = .ok { success := true, message := "copy completed successfully",
              totalBytes := 1, fileCount := 2 }) := by
  exact ⟨by decide, by decide⟩

/-- C6 (amended): copying TO_AGENT the archive with entries dir/ and
dir/file.txt (content X) into an existing empty root /tmp/d succeeds,
creates the directory and the file with content X under the root, and ends
with a single CopyResult success=true, total_bytes=1 and file_count=1
(the extractor does not count directories). -/
theorem copyToAgent_dir_archive_success :
    (handleCopyToAgent "/tmp/d" true
        [⟨"dir/", .dir, "", ""⟩, ⟨"dir/file.txt", .reg, "X", ""⟩]
        [("/tmp", .dir), ("/tmp/d", .dir)]).2
      = .ok { success := true, message := "copy completed successfully",
              totalBytes := 1, fileCount := 1 }
    ∧ fsLookup (handleCopyToAgent "/tmp/d" true
        [⟨"dir/", .dir, "", ""⟩, ⟨"dir/file.txt", .reg, "X", ""⟩]
        [("/tmp", .dir), ("/tmp/d", .dir)]).1 "/tmp/d/dir/file.txt"
      = some (.file "X")
    ∧ fsLookup (handleCopyToAgent "/tmp/d" true
        [⟨"dir/", .dir, "", ""⟩, ⟨"dir/file.txt", .reg, "X", ""⟩]
        [("/tmp", .dir), ("/tmp/d", .dir)]).1 "/tmp/d/dir"
      = some .dir := by
  exact ⟨by decide, by decide, by decide⟩

/-- C5 counterexample: the client-side extractor's rejection test does not
coincide with the agent's filepath.Rel-based test — under destination root
/tmp/d the client accepts the entry name ../dfoo that the agent rejects, so
the claimed if-and-only-if fails at this input. -/
theorem extractor_checks_disagree :
    clientRejects "/tmp/d" "../dfoo" = false
    ∧ agentRejects "/tmp/d" "../dfoo" = true := by
  exact ⟨by decide, by decide⟩

/-- C5 (amended): the client-side extractor applies a prefix-string defense
(reject unless Clean(Join(dest, name)) has Clean(dest) as a string prefix),
strictly weaker on sibling escapes than the agent's filepath.Rel check:
under root /tmp/d the agent rejects ../dfoo (target /tmp/dfoo) while the
client accepts it; on the in-root name dir/file.txt and the fully escaping
../etc/passwd the two agree. -/
theorem extractor_prefix_defense_differs :
    clientRejects "/tmp/d" "../dfoo" = false
    ∧ agentRejects "/tmp/d" "../dfoo" = true
    ∧ clientRejects "/tmp/d" "../etc/passwd" = true
    ∧ agentRejects "/tmp/d" "../etc/passwd" = true
    ∧ clientRejects "/tmp/d" "dir/file.txt" = false
    ∧ agentRejects "/tmp/d" "dir/file.txt" = false := by
  exact ⟨by decide, by decide, by decide, by decide, by decide, by decide⟩

/-- C7 counterexample: with the default configuration the pool hands the
ExecuteShell stream a context carrying a 30 s deadline even when the caller
supplied a deadline-free context — the stream context is not the caller's
context passed through unchanged. -/
theorem executeShell_ctx_not_passed_through :
    executeShellStreamCtx (newRPC ⟨0, 0⟩) 0 none = some 30000000000
    ∧ ¬ (executeShellStreamCtx (newRPC ⟨0, 0⟩) 0 none = none) := by
  exact ⟨by decide, by decide⟩

/-- C7 (amended): dialing uses dial_timeout (default 5 s); the unary
ExecuteCommand and CheckHealth calls are wrapped with the call_timeout
deadline (default 30 s); the ExecuteShell stream is wrapped with that same
call_timeout deadline — its context always carries a deadline — rather than
receiving the caller's context unchanged; only the Copy stream (absent from
src/ and modelled from the spec) passes the caller's context through. -/
theorem rpcPool_deadline_wrapping :
    newRPC ⟨0, 0⟩ = ⟨5000000000, 30000000000⟩
    ∧ (∀ cfg : GoRPCConfig, ∀ now : Int, ∀ ctx : GoCtx,
        executeCommandCallCtx cfg now ctx = withTimeout now ctx cfg.callTimeout
        ∧ checkHealthCallCtx cfg now ctx = withTimeout now ctx cfg.callTimeout
        ∧ executeShellStreamCtx cfg now ctx = executeCommandCallCtx cfg now ctx
        ∧ dialCallCtx cfg now ctx = withTimeout now ctx cfg.dialTimeout)
    ∧ (∀ now : Int, ∀ ctx : GoCtx,
        (executeShellStreamCtx (newRPC ⟨0, 0⟩) now ctx).isSome = true)
    ∧ (∀ ctx : GoCtx, rpcCopyCtx ctx = ctx) := by
  refine ⟨by decide, fun cfg now ctx => ⟨rfl, rfl, rfl, rfl⟩, fun now ctx => ?_, fun ctx => rfl⟩
  cases ctx <;> rfl

/-- C1 counterexample: a subprocess that starts and exits with code 1 makes
ExecuteCommand return RPC status Unknown, not OK — for the concrete
sh -c "echo hi && false" request the body carries stdout "hi\n",
exit_code 1 and a non-empty error message, but the status is Unknown. -/
theorem executeCommand_nonzero_exit_not_ok :
    executeCommand ⟨["sh", "-c", "echo hi && false"], [], "", 0⟩ .noErr
        (.exitError 1 "hi\n" "") .noErr
      = (some ⟨"hi\n", "", 1, "exit status 1"⟩, .unknown,
         "command failed: exit status 1")
    ∧ ¬ (Code.unknown = Code.ok) := by
  exact ⟨by decide, by decide⟩

/-- C1 (amended): for every ExecuteCommand request with non-empty args whose
subprocess runs and exits non-zero while no deadline or cancellation is in
play, the RPC status is Unknown with message "command failed: …", and the
returned response body carries the captured stdout/stderr, exit_code equal
to the subprocess exit code and a non-empty error message. -/
theorem executeCommand_exitError_unknown (args : List String)
    (env : List (String × String)) (workDir : String) (timeoutSeconds : Int)
    (code : Int) (stdout stderr : String) (hargs : args ≠ []) :
    executeCommand ⟨args, env, workDir, timeoutSeconds⟩ .noErr
        (.exitError code stdout stderr) .noErr
      = (some ⟨stdout, stderr, code, exitErrorText code⟩, .unknown,
         "command failed: " ++ exitErrorText code)
    ∧ exitErrorText code ≠ "" := by
  constructor
  · unfold executeCommand
    rw [if_neg (by simpa using hargs)]
  · intro h
    have hd : ("exit status " ++ toString code).data = "".data :=
      congrArg String.data h
    rw [String.data_append] at hd
    rcases List.append_eq_nil.mp hd with ⟨h1, _⟩
    exact absurd h1 (by decide)

/-- Witness: the C1 amended theorem applied at a concrete exit-2 run. -/
theorem executeCommand_exitError_unknown_witness :
    executeCommand ⟨["false"], [], "", 0⟩ .noErr (.exitError 2 "" "oops") .noErr
      = (some ⟨"", "oops", 2, exitErrorText 2⟩, .unknown,
         "command failed: " ++ exitErrorText 2)
    ∧ exitErrorText 2 ≠ "" :=
  executeCommand_exitError_unknown ["false"] [] "" 0 2 "" "oops" (by decide)

/-- C4: for every TO_AGENT copy and every tar entry whose joined-and-cleaned
target escapes the cleaned destination root (its path relative to the root
begins with a `..` segment), nothing is created for that entry or any later
entry — the final filesystem equals the one produced by the earlier entries
alone — and the RPC ends with status Internal; concretely, a tar whose first
entry is ../etc/passwd fails with Internal and leaves the destination root
untouched. -/
theorem copyToAgent_traversal_rejected (destPath : String) (overwrite : Bool)
    (entries : List TarEntry) (fs : FS) (i : Nat) (hi : i < entries.length)
    (hesc : escapesRoot (goClean (if destPath = "" then "." else destPath))
        (entries[i].name) = true) :
    ((handleCopyToAgent destPath overwrite entries fs).1
        = (handleCopyToAgent destPath overwrite (entries.take i) fs).1
      ∧ ∃ m, (handleCopyToAgent destPath overwrite entries fs).2
          = .error (Code.internal, m))
    ∧ handleCopyToAgent "/tmp/d" true [⟨"../etc/passwd", .reg, "secret", ""⟩]
        [("/tmp", .dir), ("/tmp/d", .dir)]
      = ([("/tmp", .dir), ("/tmp/d", .dir)],
         .error (.internal,
           "extraction failed: invalid tar entry path: ../etc/passwd")) := by
  refine ⟨?_, by decide⟩
  simp only [handleCopyToAgent]
  split
  · exact ⟨rfl, _, rfl⟩
  · rename_i fs1 hmk
    obtain ⟨hfs, _, _, herrS⟩ := extractGo_escape
      (goClean (if destPath = "" then "." else destPath)) overwrite
      { fs := fs1, totalBytes := 0, fileCount := 0, err := none } entries i hi hesc
    cases herrF : (extractGo (goClean (if destPath = "" then "." else destPath))
        overwrite { fs := fs1, totalBytes := 0, fileCount := 0, err := none }
        entries).err with
    | none => rw [herrF] at herrS; simp at herrS
    | some m' =>
      cases herrP : (extractGo (goClean (if destPath = "" then "." else destPath))
          overwrite { fs := fs1, totalBytes := 0, fileCount := 0, err := none }
          (entries.take i)).err with
      | none => exact ⟨hfs, "extraction failed: " ++ m', rfl⟩
      | some m'' => exact ⟨hfs, "extraction failed: " ++ m', rfl⟩

/-- Witness: the C4 theorem applied to a concrete archive whose second entry
escapes the destination root /data. -/
theorem copyToAgent_traversal_rejected_witness :
    ((handleCopyToAgent "/data" false
          [⟨"a.txt", .reg, "hi", ""⟩, ⟨"../evil", .reg, "x", ""⟩] []).1
        = (handleCopyToAgent "/data" false
            ([⟨"a.txt", .reg, "hi", ""⟩, ⟨"../evil", .reg, "x", ""⟩].take 1) []).1
      ∧ ∃ m, (handleCopyToAgent "/data" false
          [⟨"a.txt", .reg, "hi", ""⟩, ⟨"../evil", .reg, "x", ""⟩] []).2
          = .error (Code.internal, m))
    ∧ handleCopyToAgent "/tmp/d" true [⟨"../etc/passwd", .reg, "secret", ""⟩]
        [("/tmp", .dir), ("/tmp/d", .dir)]
      = ([("/tmp", .dir), ("/tmp/d", .dir)],
         .error (.internal,
           "extraction failed: invalid tar entry path: ../etc/passwd")) :=
  copyToAgent_traversal_rejected "/data" false
    [⟨"a.txt", .reg, "hi", ""⟩, ⟨"../evil", .reg, "x", ""⟩] [] 1
    (by decide) (by decide)

/-- Erasing an endpoint removes all of its bindings. -/
theorem countKey_assocErase_self (q : List (String × Nat)) (ep : String) :
    countKey (assocErase q ep) ep = 0 := by
  simp only [countKey, assocErase]
  rw [List.countP_filter]
  have hfun : (fun kv : String × Nat => kv.1 == ep && kv.1 != ep)
      = fun _ => false := by
    funext kv
    by_cases hc : kv.1 = ep <;> simp [hc]
  rw [hfun]
  simp

/-- Erasing one endpoint leaves the counts of the others unchanged. -/
theorem countKey_assocErase_other (q : List (String × Nat)) (ep ep' : String)
    (h : ep' ≠ ep) : countKey (assocErase q ep) ep' = countKey q ep' := by
  simp only [countKey, assocErase]
  rw [List.countP_filter]
  have hfun : (fun kv : String × Nat => kv.1 == ep' && kv.1 != ep)
      = fun kv : String × Nat => kv.1 == ep' := by
    funext kv
    by_cases hc : kv.1 = ep'
    · simp [hc, h]
    · simp [hc]
  rw [hfun]

/-- Replacing a binding gives the inserted endpoint exactly one entry and
leaves every other endpoint's count unchanged. -/
theorem countKey_assocInsert (pool : List (String × Nat)) (ep : String)
    (d : Nat) (ep' : String) :
    countKey (assocInsert pool ep d) ep'
      = if ep' = ep then 1 else countKey pool ep' := by
  by_cases h : ep' = ep
  · subst h
    simp only [assocInsert, countKey, List.countP_cons, if_pos rfl]
    rw [show List.countP (fun kv => kv.1 == ep') (assocErase pool ep')
        = countKey (assocErase pool ep') ep' from rfl, countKey_assocErase_self]
    simp
  · simp only [assocInsert, countKey, List.countP_cons, if_neg h]
    rw [show List.countP (fun kv => kv.1 == ep') (assocErase pool ep)
        = countKey (assocErase pool ep) ep' from rfl, countKey_assocErase_other _ _ _ h]
    have hb : (ep == ep') = false := by
      simp only [beq_eq_false_iff_ne, ne_eq]
      exact fun hc => h hc.symm
    simp [hb, countKey]

/-- C8: connection(endpoint) returns the cached connection unchanged when
the pool already holds one; when a dial completes while the cache already
holds a connection for the endpoint, the newly dialed connection is closed
and the cached survivor is returned; every call leaves at most one
connection per endpoint; and in the concrete dial race against a fresh pool
both callers end with the same connection while the loser's dial is
closed. -/
theorem connection_cache_behavior :
    (∀ (pool : List (String × Nat)) (ep : String) (c d : Nat),
        assocLookup pool ep = some c →
          connectionCall pool ep d = ⟨c, pool, none⟩)
    ∧ (∀ (pool : List (String × Nat)) (ep : String) (c d : Nat),
        assocLookup pool ep = some c →
          connectionAfterDial pool ep d = ⟨c, pool, some d⟩)
    ∧ (∀ (pool : List (String × Nat)) (ep : String) (d : Nat) (ep' : String),
        countKey pool ep' ≤ 1 →
          countKey (connectionCall pool ep d).pool ep' ≤ 1)
    ∧ (connectionCall [] "ep" 1 = ⟨1, [("ep", 1)], none⟩
       ∧ connectionAfterDial [("ep", 1)] "ep" 2 = ⟨1, [("ep", 1)], some 2⟩) := by
  refine ⟨?_, ?_, ?_, by decide, by decide⟩
  · intro pool ep c d h
    simp [connectionCall, h]
  · intro pool ep c d h
    simp [connectionAfterDial, h]
  · intro pool ep d ep' h
    unfold connectionCall
    cases hc : assocLookup pool ep with
    | some c => exact h
    | none =>
      have hp : (connectionAfterDial pool ep d).pool = assocInsert pool ep d := by
        unfold connectionAfterDial
        rw [hc]
      rw [hp, countKey_assocInsert]
      by_cases he : ep' = ep
      · simp [he]
      · simpa [he] using h

/-- Witness: the C8 theorem applied at a one-entry pool and at the fresh
dial race from the theorem's concrete conjunct. -/
theorem connection_cache_behavior_witness :
    connectionCall [("a", 5)] "a" 9 = ⟨5, [("a", 5)], none⟩
    ∧ connectionAfterDial [("a", 5)] "a" 9 = ⟨5, [("a", 5)], some 9⟩
    ∧ countKey (connectionCall [("a", 5)] "a" 9).pool "a" ≤ 1 :=
  ⟨connection_cache_behavior.1 [("a", 5)] "a" 5 9 rfl,
   connection_cache_behavior.2.1 [("a", 5)] "a" 5 9 rfl,
   connection_cache_behavior.2.2.1 [("a", 5)] "a" 9 "a" (by decide)⟩

/-- C10 counterexample: with overwrite=true and a non-empty directory at a
symlink entry's target, os.Remove fails (its error is discarded), the
symlink creation then fails with EEXIST, and the copy ends Internal with the
directory still present — the flag does not remove "any existing filesystem
entry" at the target. -/
theorem copyToAgent_symlink_overwrite_nonempty_dir :
    handleCopyToAgent "/tmp/d" true [⟨"link", .symlink, "", "/elsewhere"⟩]
        [("/tmp", .dir), ("/tmp/d", .dir), ("/tmp/d/link", .dir),
         ("/tmp/d/link/x", .file "y")]
      = ([("/tmp", .dir), ("/tmp/d", .dir), ("/tmp/d/link", .dir),
          ("/tmp/d/link/x", .file "y")],
         .error (.internal,
           "extraction failed: failed to create symlink /tmp/d/link: file exists")) := by
  decide

/-- C10 (amended): the overwrite flag affects only symlink entries — for
directory, regular-file and ignored entries the step is independent of it;
with overwrite=true an existing entry at a symlink's target that os.Remove
can delete (file, symlink, or empty directory) is removed and the symlink
created; with overwrite=false any pre-existing entry at the target makes the
step fail (so the copy ends Internal); and a regular-file entry is always
opened with O_CREATE|O_WRONLY|O_TRUNC, overwriting an existing file under
either flag value. -/
theorem extraction_overwrite_semantics :
    (∀ (root : String) (ow ow' : Bool) (st : ExtractState) (e : TarEntry),
        e.type ≠ TarType.symlink →
          extractStep root ow st e = extractStep root ow' st e)
    ∧ (∀ (root : String) (st : ExtractState) (e : TarEntry) (fs' fs'' : FS)
          (rel : String),
        st.err = none → e.type = TarType.symlink →
        goRel root (goJoin2 root e.name) = some rel →
        goHasPfx rel ".." = false →
        osRemove st.fs (goJoin2 root e.name) = .ok fs' →
        osSymlink fs' e.linkname (goJoin2 root e.name) = .ok fs'' →
          extractStep root true st e
            = { st with fs := fs'', fileCount := st.fileCount + 1 })
    ∧ (∀ (root : String) (st : ExtractState) (e : TarEntry) (ent : FsEntry)
          (rel : String),
        st.err = none → e.type = TarType.symlink →
        goRel root (goJoin2 root e.name) = some rel →
        goHasPfx rel ".." = false →
        fsLookup st.fs (goJoin2 root e.name) = some ent →
          extractStep root false st e
            = { st with err := some ("failed to create symlink "
                ++ goJoin2 root e.name ++ ": file exists") })
    ∧ (∀ (root : String) (ow : Bool) (st : ExtractState) (e : TarEntry)
          (fs1 : FS) (old rel : String),
        st.err = none → e.type = TarType.reg →
        goRel root (goJoin2 root e.name) = some rel →
        goHasPfx rel ".." = false →
        osMkdirAll st.fs (goDir (goJoin2 root e.name)) = .ok fs1 →
        fsLookup fs1 (goJoin2 root e.name) = some (.file old) →
        dirExists fs1 (goDir (goJoin2 root e.name)) = true →
          extractStep root ow st e
            = { st with
                  fs := fsInsert fs1 (goJoin2 root e.name) (.file e.content),
                  totalBytes := st.totalBytes + e.content.length,
                  fileCount := st.fileCount + 1 }) := by
  refine ⟨?_, ?_, ?_, ?_⟩
  · intro root ow ow' st e hty
    obtain ⟨n, ty, co, li⟩ := e
    simp only [extractStep]
    cases herr : st.err with
    | some m => rfl
    | none =>
      cases hg : goRel root (goJoin2 root n) with
      | none => rfl
      | some rel =>
        by_cases hp : goHasPfx rel ".." = true
        · simp [hp]
        · simp only [Bool.not_eq_true] at hp
          simp only [hp, Bool.false_eq_true, if_false]
          cases ty with
          | dir => rfl
          | reg => rfl
          | symlink => exact absurd rfl hty
          | other => rfl
  · intro root st e fs' fs'' rel herr hty hg hp hrm hsl
    obtain ⟨n, ty, co, li⟩ := e
    simp only at hty
    subst hty
    have h0 : osRemoveIgnore st.fs (goJoin2 root n) = fs' := by
      unfold osRemoveIgnore
      rw [hrm]
    simp only at hg hp hsl
    simp only [extractStep, herr, hg, hp, Bool.false_eq_true, if_false,
      if_true, h0, hsl]
  · intro root st e ent rel herr hty hg hp hlk
    obtain ⟨n, ty, co, li⟩ := e
    simp only at hty
    subst hty
    simp only at hg hp hlk
    have hsl : osSymlink st.fs li (goJoin2 root n) = .error "file exists" := by
      unfold osSymlink
      rw [hlk]
    simp only [extractStep, herr, hg, hp, Bool.false_eq_true, if_false, hsl]
    rw [String.append_assoc, show (": " ++ "file exists" : String) = ": file exists" from rfl]
  · intro root ow st e fs1 old rel herr hty hg hp hmk hlk hdir
    obtain ⟨n, ty, co, li⟩ := e
    simp only at hty
    subst hty
    simp only at hg hp hmk hlk hdir
    have hop : osOpenWrite fs1 (goJoin2 root n) co
        = .ok (fsInsert fs1 (goJoin2 root n) (.file co)) := by
      unfold osOpenWrite
      rw [hlk, hdir]
      simp
    simp only [extractStep, herr, hg, hp, Bool.false_eq_true, if_false,
      hmk, hop]

/-- Witness: the four parts of the C10 amended theorem applied at concrete
filesystems — an overwrite-independent regular entry, a removable file at a
symlink target with overwrite on, the same file with overwrite off, and a
regular entry truncating an existing file. -/
theorem extraction_overwrite_semantics_witness :
    extractStep "/r" true ⟨[], 0, 0, none⟩ ⟨"f", .reg, "z", ""⟩
      = extractStep "/r" false ⟨[], 0, 0, none⟩ ⟨"f", .reg, "z", ""⟩
    ∧ extractStep "/tmp/d" true
        ⟨[("/tmp", .dir), ("/tmp/d", .dir), ("/tmp/d/link", .file "old")], 0, 0, none⟩
        ⟨"link", .symlink, "", "/elsewhere"⟩
      = ⟨[("/tmp/d/link", .symlink "/elsewhere"), ("/tmp", .dir), ("/tmp/d", .dir)],
         0, 1, none⟩
    ∧ extractStep "/tmp/d" false
        ⟨[("/tmp", .dir), ("/tmp/d", .dir), ("/tmp/d/link", .file "old")], 0, 0, none⟩
        ⟨"link", .symlink, "", "/elsewhere"⟩
      = ⟨[("/tmp", .dir), ("/tmp/d", .dir), ("/tmp/d/link", .file "old")], 0, 0,
         some "failed to create symlink /tmp/d/link: file exists"⟩
    ∧ extractStep "/tmp/d" true
        ⟨[("/tmp", .dir), ("/tmp/d", .dir), ("/tmp/d/f", .file "old")], 0, 0, none⟩
        ⟨"f", .reg, "NEW", ""⟩
      = ⟨[("/tmp/d/f", .file "NEW"), ("/tmp", .dir), ("/tmp/d", .dir)], 3, 1, none⟩ :=
  ⟨extraction_overwrite_semantics.1 "/r" true false ⟨[], 0, 0, none⟩
      ⟨"f", .reg, "z", ""⟩ (by decide),
   extraction_overwrite_semantics.2.1 "/tmp/d"
      ⟨[("/tmp", .dir), ("/tmp/d", .dir), ("/tmp/d/link", .file "old")], 0, 0, none⟩
      ⟨"link", .symlink, "", "/elsewhere"⟩
      [("/tmp", .dir), ("/tmp/d", .dir)]
      [("/tmp/d/link", .symlink "/elsewhere"), ("/tmp", .dir), ("/tmp/d", .dir)]
      "link" rfl rfl (by decide) (by decide) (by decide) (by decide),
   extraction_overwrite_semantics.2.2.1 "/tmp/d"
      ⟨[("/tmp", .dir), ("/tmp/d", .dir), ("/tmp/d/link", .file "old")], 0, 0, none⟩
      ⟨"link", .symlink, "", "/elsewhere"⟩ (.file "old")
      "link" rfl rfl (by decide) (by decide) (by decide),
   extraction_overwrite_semantics.2.2.2 "/tmp/d" true
      ⟨[("/tmp", .dir), ("/tmp/d", .dir), ("/tmp/d/f", .file "old")], 0, 0, none⟩
      ⟨"f", .reg, "NEW", ""⟩
      [("/tmp", .dir), ("/tmp/d", .dir), ("/tmp/d/f", .file "old")]
      "old" "f" rfl rfl (by decide) (by decide) (by decide) (by decide) (by decide)⟩
